import Mathlib

/-!
jest-action: annotation builder, summary composer and batch uploader.

A shallow embedding of `.github/action/jest-action.go`.

* Go `string` values are Lean `String`s, read through their character lists
  (`String.data`).
* A Go pointer that the program dereferences (`*TestResult`, `*AssertionResult`,
  `*ListCheckRunsResults`) is an `Option`: `none` is the nil pointer that
  `encoding/json` stores for a JSON `null`, and dereferencing it is a run-time
  panic.
* Go `int` is `Int` (no arithmetic of the program can overflow: the only
  additions are `i + 50` on a slice index).
* Standard-library and `go-github` functions (`strings.TrimPrefix`,
  `strings.Join`, `strings.Split`, `fmt.Sprintf`, the two API calls) are not
  part of the repository; they are modelled after their documentation.
-/

namespace JestAction

/-! ## Data model (lines 15-46) -/

structure Location where
  Column : Int
  Line : Int
deriving DecidableEq, Repr

structure AssertionResult where
  AncestorTitles : List String
  FailureMessages : List String
  FullName : String
  Location : Location
  Status : String
  Title : String
deriving DecidableEq, Repr

structure TestResult where
  AssertionResults : List (Option AssertionResult)
  Message : String
  FilePath : String
  Status : String
  Summary : String
deriving DecidableEq, Repr

structure Report where
  NumFailedTests : Int
  NumPassedTests : Int
  NumTotalTests : Int
  NumFailedTestSuites : Int
  NumPassedTestSuites : Int
  NumTotalTestSuites : Int
  Success : Bool
  TestResults : List (Option TestResult)
deriving DecidableEq, Repr

/-- The fields of `github.CheckRunAnnotation` that `main` sets; the remaining
pointer fields of the library type stay nil. -/
structure CheckRunAnnotation where
  Path : String
  StartLine : Int
  EndLine : Int
  AnnotationLevel : String
  Title : String
  Message : String
deriving DecidableEq, Repr

/-! ## Standard-library string functions -/

/-- Go `strings.HasPrefix s p`. -/
def HasPrefix (s p : String) : Bool :=
  p.data.isPrefixOf s.data

/-- Go `strings.TrimPrefix s p`: `s` without the leading `p`, or `s` itself
when `s` does not start with `p`. -/
def TrimPrefix (s p : String) : String :=
  if HasPrefix s p then String.mk (s.data.drop p.data.length) else s

/-- Go `strings.Join elems sep`: the first element, then each further element
preceded by the separator. -/
def Join (elems : List String) (sep : String) : String :=
  match elems with
  | [] => ""
  | e :: rest => rest.foldl (fun b s => b ++ sep ++ s) e

/-- Go `strings.Split s sep` for a one-character separator, scanning `s` with
the piece collected so far. -/
def splitChars (sep : Char) : List Char → List Char → List String
  | [], piece => [String.mk piece]
  | c :: cs, piece =>
    if c = sep then String.mk piece :: splitChars sep cs []
    else splitChars sep cs (piece ++ [c])

/-- Go `strings.Split s sep` at the one-character separators the program uses. -/
def Split (s : String) (sep : Char) : List String :=
  splitChars sep s.data []

/-- An operand of `fmt.Sprintf`: the program passes Go `int`s and `string`s. -/
inductive Arg where
  | int (v : Int)
  | str (v : String)
deriving DecidableEq, Repr

/-- Go `%d` on an `int`: base ten, a leading minus sign for negative values. -/
def fmtInteger (v : Int) : String :=
  if v < 0 then "-" ++ Nat.repr v.natAbs else Nat.repr v.natAbs

/-- The fragment of Go `fmt.Sprintf` the program uses, on character lists: the
verb `%d` applied to an `int` operand and `%s` applied to a `string` operand
consume the next operand; every other character is copied. (Go's error
markers for missing or mismatched operands are not modelled: the program's
format strings never trigger them.) -/
def sprintfChars : List Char → List Arg → List Char
  | [], _ => []
  | '%' :: 'd' :: rest, Arg.int v :: args => (fmtInteger v).data ++ sprintfChars rest args
  | '%' :: 's' :: rest, Arg.str v :: args => v.data ++ sprintfChars rest args
  | c :: rest, args => c :: sprintfChars rest args

/-- Go `fmt.Sprintf format args...`. -/
def Sprintf (format : String) (args : List Arg) : String :=
  String.mk (sprintfChars format.data args)

/-! ## Annotation builder (lines 89-128) -/

/-- Lines 104-115: the annotation appended for a non-passed assertion `a`. -/
def annotationOfAssertion (path : String) (a : AssertionResult) : CheckRunAnnotation :=
  let a : AssertionResult :=
    if a.FailureMessages.length = 0 then
      { a with FailureMessages := a.FailureMessages ++ [a.FullName] }
    else a
  { Path := path
    StartLine := a.Location.Line
    EndLine := a.Location.Line
    AnnotationLevel := "failure"
    Title := a.FullName
    Message := Join a.FailureMessages "\n\n" }

/-- Lines 119-126: the annotation appended for a result without assertions. -/
def annotationOfSuite (path : String) (t : TestResult) : CheckRunAnnotation :=
  { Path := path
    StartLine := 1
    EndLine := 1
    AnnotationLevel := "failure"
    Title := "Test Suite Error"
    Message := t.Message }

/-- Lines 99-116: the inner `range` loop, threading the `annotations` slice.
`none` is the nil-pointer panic of `a.Status` on a nil entry. -/
def assertionLoop (path : String) :
    List (Option AssertionResult) → List CheckRunAnnotation → Option (List CheckRunAnnotation)
  | [], annotations => some annotations
  | none :: _, _ => none
  | some a :: rest, annotations =>
    if a.Status = "passed" then assertionLoop path rest annotations
    else assertionLoop path rest (annotations ++ [annotationOfAssertion path a])

/-- Lines 92-127: one iteration of the outer loop on the entry `t`; `none` is
the nil-pointer panic of `t.Status` on a nil entry, or that of the inner loop. -/
def testResultStep (workspacePath : String) (t : Option TestResult)
    (annotations : List CheckRunAnnotation) : Option (List CheckRunAnnotation) :=
  match t with
  | none => none
  | some t =>
    if t.Status = "passed" then some annotations
    else
      let path := TrimPrefix t.FilePath workspacePath
      if t.AssertionResults.length > 0 then
        assertionLoop path t.AssertionResults annotations
      else
        some (annotations ++ [annotationOfSuite path t])

/-- Lines 91-128: the outer `range` loop over `report.TestResults`. -/
def testResultLoop (workspacePath : String) :
    List (Option TestResult) → List CheckRunAnnotation → Option (List CheckRunAnnotation)
  | [], annotations => some annotations
  | t :: rest, annotations =>
    match testResultStep workspacePath t annotations with
    | none => none
    | some annotations => testResultLoop workspacePath rest annotations

/-- Lines 89-128: `workspacePath := GITHUB_WORKSPACE + "/"`, then the loop
starting from the nil slice. -/
def buildAnnotations (GITHUB_WORKSPACE : String) (results : List (Option TestResult)) :
    Option (List CheckRunAnnotation) :=
  testResultLoop (GITHUB_WORKSPACE ++ "/") results []

/-! ## Summary composer (lines 130-141) -/

/-- Lines 130-141: the two `Sprintf` calls and the `+=`. -/
def summary (report : Report) : String :=
  let summary := Sprintf "Test Suites: %d failed, %d passed, %d total\n"
    [Arg.int report.NumFailedTests, Arg.int report.NumPassedTests, Arg.int report.NumTotalTests]
  summary ++ Sprintf "Tests: %d failed, %d passed, %d total"
    [Arg.int report.NumFailedTestSuites, Arg.int report.NumPassedTestSuites,
     Arg.int report.NumTotalTestSuites]

/-! ## Process model: environment, remote API, effects -/

/-- The five environment variables `main` reads; `os.Getenv` yields the empty
string for an unset variable. -/
structure Env where
  GITHUB_SECRET : String
  GITHUB_SHA : String
  GITHUB_REPOSITORY : String
  GITHUB_ACTION : String
  GITHUB_WORKSPACE : String
deriving DecidableEq, Repr

/-- A `github.CheckRun` as far as `main` looks at it: its `ID` pointer and the
text that `fmt.Println` prints for it. -/
structure CheckRun where
  ID : Option Int
  text : String
deriving DecidableEq, Repr

/-- The nil-safe accessor `(*CheckRun).GetID` of go-github. -/
def GetID : Option CheckRun → Int
  | none => 0
  | some c => c.ID.getD 0

/-- What `fmt.Println(run)` writes for an entry of `result.CheckRuns`. -/
def printed : Option CheckRun → String
  | none => "<nil>"
  | some c => c.text

structure CheckRunOutput where
  Title : String
  Summary : String
  Annotations : List CheckRunAnnotation
deriving DecidableEq, Repr

structure UpdateCheckRunOptions where
  Name : String
  HeadSHA : String
  Output : CheckRunOutput
deriving DecidableEq, Repr

/-- The `github.ListCheckRunsResults` a lookup yields, as far as `main` reads
it: the `CheckRuns` slice (nil and empty are both `[]`). -/
structure ListCheckRunsResults where
  CheckRuns : List (Option CheckRun)
deriving DecidableEq, Repr

/-- The behaviour of the remote API in one run. `main` is sequential and
deterministic, so a behaviour is the result of the single lookup and the
result of the `k`-th update call (counted from 0) for every `k`; an error
is represented by its message. The lookup returns a pointer and an error:
`Except.ok none` is the nil `*ListCheckRunsResults` that go-github returns
with a nil error when the response body is empty or the JSON `null`. Every
call is taken to return. -/
structure Remote where
  ListCheckRunsForRef : Except String (Option ListCheckRunsResults)
  UpdateCheckRun : Nat → Option String

/-- The observable actions of a run, in order. -/
inductive Event where
  | ListCheckRunsForRef (owner repo ref : String)
  | Println (line : String)
  | UpdateCheckRun (owner repo : String) (checkRunID : Int) (opts : UpdateCheckRunOptions)
deriving DecidableEq, Repr

/-- How the process ends: a normal return from `main` (exit status 0), a
`log.Fatal`/`log.Fatalf` call with its message (exit status 1), or a Go
run-time panic (nil dereference, index out of range). -/
inductive Outcome where
  | returned
  | fatal (message : String)
  | panic
deriving DecidableEq, Repr

structure Run where
  events : List Event
  outcome : Outcome
deriving DecidableEq, Repr

/-- The Go slice expression `annotations[i:j]` for `i ≤ j ≤ len`. -/
def slice (annotations : List CheckRunAnnotation) (i j : Nat) : List CheckRunAnnotation :=
  (annotations.take j).drop i

/-! ## Batch uploader (lines 143-165) -/

/-- Lines 145-161: the options of the update call for the chunk starting at `i`. -/
def chunkOptions (checkName head summary : String) (annotations : List CheckRunAnnotation)
    (i : Nat) : UpdateCheckRunOptions :=
  let end_ := if i + 50 > annotations.length then annotations.length else i + 50
  let output : CheckRunOutput :=
    { Title := "Result", Summary := summary, Annotations := slice annotations i end_ }
  { Name := checkName, HeadSHA := head, Output := output }

/-- Lines 144-165: the loop `for i := 0; i < len(annotations); i += 50`, from
the index `i` on, `k` update calls having been made. The result is the list
of calls made and the error of the failing call, if any. The first argument
bounds the number of iterations; `none` means the bound was too small. -/
def chunkLoop (remote : Remote) (owner repoName : String) (id : Int)
    (checkName head summary : String) (annotations : List CheckRunAnnotation) :
    Nat → Nat → Nat → Option (List Event × Option String)
  | 0, i, _ => if i < annotations.length then none else some ([], none)
  | fuel + 1, i, k =>
    if i < annotations.length then
      let call := Event.UpdateCheckRun owner repoName id
        (chunkOptions checkName head summary annotations i)
      match remote.UpdateCheckRun k with
      | some err => some ([call], some err)
      | none =>
        match chunkLoop remote owner repoName id checkName head summary annotations
            fuel (i + 50) (k + 1) with
        | none => none
        | some (calls, err) => some (call :: calls, err)
    else some ([], none)

/-- Lines 143-167: the loop from `i = 0` and the closing `log.Fatal(summary)`.
Every iteration advances `i` by 50, so `len(annotations)` iterations suffice. -/
def upload (remote : Remote) (owner repoName : String) (id : Int)
    (checkName head summary : String) (annotations : List CheckRunAnnotation) : Option Run :=
  match chunkLoop remote owner repoName id checkName head summary annotations
      annotations.length 0 0 with
  | none => none
  | some (calls, some err) => some { events := calls, outcome := Outcome.fatal err }
  | some (calls, none) => some { events := calls, outcome := Outcome.fatal summary }

/-! ## main (lines 48-168) -/

/-- The program. `stdin` is the result of `json.NewDecoder(os.Stdin).Decode`:
the decoding error or the decoded report. A nil lookup result is dereferenced
by `result.CheckRuns` at line 79: a run-time panic after the lookup. The result
is `none` only if the iteration bound of the chunk loop were too small. -/
def main (stdin : Except String Report) (env : Env) (remote : Remote) : Option Run :=
  match stdin with
  | Except.error err => some { events := [], outcome := Outcome.fatal err }
  | Except.ok report =>
    if report.Success then some { events := [], outcome := Outcome.returned }
    else
      let head := env.GITHUB_SHA
      let repoParts := Split env.GITHUB_REPOSITORY '/'
      match repoParts with
      | owner :: repoName :: _ =>
        let checkName := env.GITHUB_ACTION
        let lookup := [Event.ListCheckRunsForRef owner repoName head]
        match remote.ListCheckRunsForRef with
        | Except.error err => some { events := lookup, outcome := Outcome.fatal err }
        | Except.ok none => some { events := lookup, outcome := Outcome.panic }
        | Except.ok (some result) =>
          let prints := result.CheckRuns.map (fun run => Event.Println (printed run))
          match result.CheckRuns with
          | [] =>
            some { events := lookup ++ prints
                   outcome := Outcome.fatal
                     (Sprintf "Unable to find check run for action: %s" [Arg.str checkName]) }
          | checkRun :: _ =>
            match buildAnnotations env.GITHUB_WORKSPACE report.TestResults with
            | none => some { events := lookup ++ prints, outcome := Outcome.panic }
            | some annotations =>
              match upload remote owner repoName (GetID checkRun) checkName head
                  (summary report) annotations with
              | none => none
              | some run =>
                some { events := lookup ++ prints ++ run.events, outcome := run.outcome }
      | _ => some { events := [], outcome := Outcome.panic }

/-! ## The annotation list as the specification describes it -/

/-- The non-passed assertions of a result, in order. -/
def failedAssertions (t : TestResult) : List AssertionResult :=
  t.AssertionResults.reduceOption.filter (fun a => decide (a.Status ≠ "passed"))

/-- The annotations the specification assigns to one entry of `TestResults`:
none for a passed result, one per non-passed assertion for a non-passed
result with assertion entries, exactly one for a non-passed result without. -/
def specResultAnnotations (workspace : String) : Option TestResult → List CheckRunAnnotation
  | none => []
  | some t =>
    if t.Status = "passed" then []
    else if t.AssertionResults = [] then
      [annotationOfSuite (TrimPrefix t.FilePath (workspace ++ "/")) t]
    else
      (failedAssertions t).map (annotationOfAssertion (TrimPrefix t.FilePath (workspace ++ "/")))

/-- The specified annotation list: the per-result lists concatenated in
report order. -/
def specAnnotations (workspace : String) (results : List (Option TestResult)) :
    List CheckRunAnnotation :=
  (results.map (specResultAnnotations workspace)).flatten

/-- Number of non-passed assertions in non-passed results that have assertions. -/
def failedAssertionCount (results : List (Option TestResult)) : Nat :=
  ((results.reduceOption.filter
      (fun t => decide (t.Status ≠ "passed" ∧ t.AssertionResults ≠ []))).map
    (fun t => (failedAssertions t).length)).sum

/-- Number of non-passed results without assertion entries. -/
def failedSuiteCount (results : List (Option TestResult)) : Nat :=
  (results.reduceOption.filter
    (fun t => decide (t.Status ≠ "passed" ∧ t.AssertionResults = []))).length

/-- The builder dereferences the entry `t` and, unless the result passed,
each of its assertion entries: `true` when none of these pointers is nil. -/
def entrySafe : Option TestResult → Bool
  | none => false
  | some t => decide (t.Status = "passed") || t.AssertionResults.all Option.isSome

/-- No nil pointer is dereferenced while the annotations are built. -/
def derefSafe (results : List (Option TestResult)) : Bool :=
  results.all entrySafe

/-! ## Example inputs -/

/-- A failed assertion with the two failure messages "A" and "B". -/
def exAssertionAB : AssertionResult :=
  { AncestorTitles := ["foo"], FailureMessages := ["A", "B"], FullName := "foo adds"
    Location := { Column := 3, Line := 7 }, Status := "failed", Title := "adds" }

/-- A failed assertion without failure messages. -/
def exAssertionBare : AssertionResult :=
  { AncestorTitles := ["foo"], FailureMessages := [], FullName := "foo subtracts"
    Location := { Column := 3, Line := 12 }, Status := "failed", Title := "subtracts" }

/-- A passed assertion. -/
def exAssertionPassed : AssertionResult :=
  { AncestorTitles := ["foo"], FailureMessages := [], FullName := "foo multiplies"
    Location := { Column := 3, Line := 20 }, Status := "passed", Title := "multiplies" }

/-- A failed test file with two failed assertions and a passed one. -/
def exFailedResult : TestResult :=
  { AssertionResults := [some exAssertionAB, some exAssertionPassed, some exAssertionBare]
    Message := "", FilePath := "/home/ci/proj/src/foo.test.js", Status := "failed"
    Summary := "" }

/-- A test file that could not be run: no assertion entries. -/
def exSuiteError : TestResult :=
  { AssertionResults := [], Message := "SyntaxError: x"
    FilePath := "/home/ci/proj/src/bar.test.js", Status := "failed", Summary := "" }

/-- A passed test file. -/
def exPassedResult : TestResult :=
  { AssertionResults := [some exAssertionPassed], Message := ""
    FilePath := "/home/ci/proj/src/baz.test.js", Status := "passed", Summary := "" }

/-- A failed report over the three files above. -/
def exReport : Report :=
  { NumFailedTests := 2, NumPassedTests := 8, NumTotalTests := 10
    NumFailedTestSuites := 1, NumPassedTestSuites := 4, NumTotalTestSuites := 5
    Success := false
    TestResults := [some exPassedResult, some exFailedResult, some exSuiteError] }

/-- The environment of a GitHub Actions job. -/
def exEnv : Env :=
  { GITHUB_SECRET := "token", GITHUB_SHA := "0123abc"
    GITHUB_REPOSITORY := "rkusa/jest-action-example", GITHUB_ACTION := "jest"
    GITHUB_WORKSPACE := "/home/ci/proj" }

/-- An environment in which `GITHUB_REPOSITORY` is unset. -/
def exEnvNoRepository : Env :=
  { exEnv with GITHUB_REPOSITORY := "" }

/-- A remote whose lookup finds one check run with id 42 and whose updates
all succeed. -/
def exRemote : Remote :=
  { ListCheckRunsForRef :=
      Except.ok (some { CheckRuns := [some { ID := some 42, text := "github.CheckRun" }] })
    UpdateCheckRun := fun _ => none }

/-- A remote whose lookup succeeds with an empty list. -/
def exRemoteEmpty : Remote :=
  { ListCheckRunsForRef := Except.ok (some { CheckRuns := [] })
    UpdateCheckRun := fun _ => none }

/-- A remote whose lookup returns a nil result and a nil error. -/
def exRemoteNilResult : Remote :=
  { ListCheckRunsForRef := Except.ok none, UpdateCheckRun := fun _ => none }

/-- A remote whose second update call fails. -/
def exRemoteSecondFails : Remote :=
  { ListCheckRunsForRef :=
      Except.ok (some { CheckRuns := [some { ID := some 42, text := "github.CheckRun" }] })
    UpdateCheckRun := fun k => if k = 1 then some "502 Bad Gateway" else none }

/-- An annotation, to fill lists of a given length. -/
def exAnnotation : CheckRunAnnotation :=
  { Path := "src/foo.test.js", StartLine := 7, EndLine := 7, AnnotationLevel := "failure"
    Title := "foo adds", Message := "A" }

/-! ## The update calls as the specification describes them -/

/-- The `k`-th chunk, counting from 0: `annotations[50 k .. min (50 (k + 1)) n)`. -/
def specChunk (annotations : List CheckRunAnnotation) (k : Nat) : List CheckRunAnnotation :=
  slice annotations (50 * k) (min (50 * k + 50) annotations.length)

/-- The update call for the `k`-th chunk: check name, head SHA, title
"Result", the summary and the chunk. -/
def specUpdateCall (owner repoName : String) (id : Int) (checkName head summary : String)
    (annotations : List CheckRunAnnotation) (k : Nat) : Event :=
  Event.UpdateCheckRun owner repoName id
    { Name := checkName, HeadSHA := head
      Output := { Title := "Result", Summary := summary
                  Annotations := specChunk annotations k } }

/-! ## Lemmas on the annotation builder -/

theorem assertionLoop_eq (path : String) (l : List (Option AssertionResult))
    (acc : List CheckRunAnnotation) :
    assertionLoop path l acc =
      if l.all Option.isSome then
        some (acc ++ ((l.reduceOption.filter (fun a => decide (a.Status ≠ "passed"))).map
          (annotationOfAssertion path)))
      else none := by
  induction l generalizing acc with
  | nil => simp [assertionLoop]
  | cons x rest ih =>
    cases x with
    | none => simp [assertionLoop]
    | some a =>
      by_cases hp : a.Status = "passed"
      · simp [assertionLoop, hp, ih, List.reduceOption_cons_of_some]
      · simp [assertionLoop, hp, ih, List.reduceOption_cons_of_some]

theorem testResultStep_eq (workspace : String) (t : Option TestResult)
    (acc : List CheckRunAnnotation) :
    testResultStep (workspace ++ "/") t acc =
      if entrySafe t then some (acc ++ specResultAnnotations workspace t) else none := by
  cases t with
  | none => simp [testResultStep, entrySafe]
  | some t =>
    by_cases hp : t.Status = "passed"
    · simp [testResultStep, entrySafe, specResultAnnotations, hp]
    · by_cases he : t.AssertionResults = []
      · simp [testResultStep, entrySafe, specResultAnnotations, hp, he]
      · have hlen : t.AssertionResults.length > 0 := List.length_pos.mpr he
        simp [testResultStep, entrySafe, specResultAnnotations, hp, he, hlen,
          assertionLoop_eq, failedAssertions]

theorem testResultLoop_eq (workspace : String) (results : List (Option TestResult))
    (acc : List CheckRunAnnotation) :
    testResultLoop (workspace ++ "/") results acc =
      if derefSafe results then some (acc ++ specAnnotations workspace results) else none := by
  induction results generalizing acc with
  | nil => simp [testResultLoop, derefSafe, specAnnotations]
  | cons t rest ih =>
    rw [testResultLoop, testResultStep_eq]
    by_cases hs : entrySafe t = true
    · simp only [hs, if_true, ih]
      by_cases hr : derefSafe rest = true
      · have hall : derefSafe (t :: rest) = true := by
          simp only [derefSafe, List.all_cons, hs, Bool.true_and] at hr ⊢
          exact hr
        simp [hr, hall, specAnnotations]
      · have hall : ¬ derefSafe (t :: rest) = true := by
          simp only [derefSafe, List.all_cons, hs, Bool.true_and] at hr ⊢
          exact hr
        simp [hr, hall]
    · simp [derefSafe, hs]

theorem buildAnnotations_eq (workspace : String) (results : List (Option TestResult)) :
    buildAnnotations workspace results =
      if derefSafe results then some (specAnnotations workspace results) else none := by
  simp [buildAnnotations, testResultLoop_eq]

theorem specAnnotations_length (workspace : String) (results : List (Option TestResult)) :
    (specAnnotations workspace results).length =
      failedAssertionCount results + failedSuiteCount results := by
  induction results with
  | nil => simp [specAnnotations, failedAssertionCount, failedSuiteCount]
  | cons t rest ih =>
    have hcons : specAnnotations workspace (t :: rest) =
        specResultAnnotations workspace t ++ specAnnotations workspace rest := by
      simp [specAnnotations]
    rw [hcons, List.length_append, ih]
    cases t with
    | none =>
      simp [specResultAnnotations, failedAssertionCount, failedSuiteCount]
    | some t =>
      by_cases hp : t.Status = "passed"
      · simp [specResultAnnotations, failedAssertionCount, failedSuiteCount,
          List.reduceOption_cons_of_some, hp]
      · by_cases he : t.AssertionResults = []
        · simp [specResultAnnotations, failedAssertionCount, failedSuiteCount,
            List.reduceOption_cons_of_some, hp, he]
          omega
        · simp [specResultAnnotations, failedAssertionCount, failedSuiteCount,
            List.reduceOption_cons_of_some, hp, he]
          omega

/-! ## Lemmas on the string functions -/

theorem TrimPrefix_append (q p : String) : TrimPrefix (q ++ p) q = p := by
  have h : q.data.isPrefixOf (q.data ++ p.data) = true := by
    rw [List.isPrefixOf_iff_prefix]
    exact List.prefix_append _ _
  simp [TrimPrefix, HasPrefix, h]

theorem annotationOfAssertion_message (path : String) (a : AssertionResult) :
    (annotationOfAssertion path a).Message =
      if a.FailureMessages = [] then a.FullName else Join a.FailureMessages "\n\n" := by
  by_cases h : a.FailureMessages = []
  · simp [annotationOfAssertion, h, Join]
  · have hl : ¬ a.FailureMessages.length = 0 := by
      simpa [List.length_eq_zero] using h
    simp [annotationOfAssertion, h, hl]

/-! ## Annotation builder: the claims -/

/-- C2: whenever `main` builds the annotation list, it is the concatenation,
in report order, of nothing for a passed result, one annotation per non-passed
assertion (start line = end line = the assertion's line, title = its full
name, level "failure") for a non-passed result with assertion entries, and
exactly one annotation for a non-passed result without assertion entries; its
length is the number of such assertions plus the number of such results. The
list is built for every report in which no dereferenced entry is null. -/
theorem annotations_follow_report (workspace : String) (results : List (Option TestResult)) :
    (derefSafe results = true →
      buildAnnotations workspace results = some (specAnnotations workspace results))
    ∧ (∀ annotations, buildAnnotations workspace results = some annotations →
        annotations = specAnnotations workspace results
        ∧ annotations.length = failedAssertionCount results + failedSuiteCount results)
    ∧ (∀ (path : String) (a : AssertionResult),
        (annotationOfAssertion path a).StartLine = a.Location.Line
        ∧ (annotationOfAssertion path a).EndLine = a.Location.Line
        ∧ (annotationOfAssertion path a).Title = a.FullName
        ∧ (annotationOfAssertion path a).AnnotationLevel = "failure") := by
  refine ⟨?_, ?_, ?_⟩
  · intro h
    simp [buildAnnotations_eq, h]
  · intro annotations h
    rw [buildAnnotations_eq] at h
    by_cases hs : derefSafe results = true
    · simp only [hs, if_true, Option.some.injEq] at h
      subst h
      exact ⟨rfl, specAnnotations_length workspace results⟩
    · simp [hs] at h
  · intro path a
    by_cases hl : a.FailureMessages.length = 0 <;> simp [annotationOfAssertion, hl]

/-- Witness for C2: a report with a passed result, a failed result with one
failed and one passed assertion, and a failed result without assertions. -/
theorem annotations_follow_report_witness :
    buildAnnotations "/w"
      [some ⟨[], "", "/w/a.js", "passed", ""⟩,
       some ⟨[some ⟨[], ["boom"], "s t", ⟨3, 7⟩, "failed", "t"⟩,
              some ⟨[], [], "s u", ⟨3, 9⟩, "passed", "u"⟩], "", "/w/b.js", "failed", ""⟩,
       some ⟨[], "SyntaxError: x", "/w/c.js", "failed", ""⟩]
      = some [⟨"b.js", 7, 7, "failure", "s t", "boom"⟩,
              ⟨"c.js", 1, 1, "failure", "Test Suite Error", "SyntaxError: x"⟩] :=
  ((annotations_follow_report "/w" _).1 (by decide)).trans (by decide)

/-- C3: the iteration of the inner loop on a non-passed assertion appends one
annotation; it is in the list `main` builds; its message is the failure
messages joined with a blank line, or the full name when there are no failure
messages; for the messages "A", "B" it is "A\n\nB". -/
theorem message_of_failed_assertion (workspace : String) (results : List (Option TestResult))
    (t : TestResult) (a : AssertionResult)
    (ht : some t ∈ results) (hts : t.Status ≠ "passed")
    (ha : some a ∈ t.AssertionResults) (has : a.Status ≠ "passed") :
    (∀ path rest annotations, assertionLoop path (some a :: rest) annotations =
        assertionLoop path rest (annotations ++ [annotationOfAssertion path a]))
    ∧ (derefSafe results = true → ∃ annotations,
        buildAnnotations workspace results = some annotations
        ∧ annotationOfAssertion (TrimPrefix t.FilePath (workspace ++ "/")) a ∈ annotations)
    ∧ (∀ annotations, buildAnnotations workspace results = some annotations →
        annotationOfAssertion (TrimPrefix t.FilePath (workspace ++ "/")) a ∈ annotations)
    ∧ (∀ path, (annotationOfAssertion path a).Message =
        if a.FailureMessages = [] then a.FullName else Join a.FailureMessages "\n\n")
    ∧ (∀ path, a.FailureMessages = ["A", "B"] →
        (annotationOfAssertion path a).Message = "A\n\nB") := by
  have hmem : annotationOfAssertion (TrimPrefix t.FilePath (workspace ++ "/")) a
      ∈ specAnnotations workspace results := by
    have hne : t.AssertionResults ≠ [] := List.ne_nil_of_mem ha
    simp only [specAnnotations, List.mem_flatten, List.mem_map]
    refine ⟨_, ⟨some t, ht, rfl⟩, ?_⟩
    simp only [specResultAnnotations, hts, hne, if_false, List.mem_map]
    refine ⟨a, ?_, rfl⟩
    simp [failedAssertions, List.mem_filter, List.reduceOption_mem_iff, ha, has]
  refine ⟨?_, ?_, ?_, fun path => annotationOfAssertion_message path a, ?_⟩
  · intro path rest annotations
    simp [assertionLoop, has]
  · intro hs
    exact ⟨_, by simp [buildAnnotations_eq, hs], hmem⟩
  · intro annotations hbuilt
    rw [buildAnnotations_eq] at hbuilt
    by_cases hs : derefSafe results = true
    · simp only [hs, if_true, Option.some.injEq] at hbuilt
      subst hbuilt
      exact hmem
    · simp [hs] at hbuilt
  · intro path h
    rw [annotationOfAssertion_message, h]
    rfl

/-- Witness for C3: the two failed assertions of the example file. -/
theorem message_of_failed_assertion_witness :
    annotationOfAssertion (TrimPrefix exFailedResult.FilePath ("/home/ci/proj" ++ "/"))
        exAssertionBare
      ∈ [annotationOfAssertion "src/foo.test.js" exAssertionAB,
         { Path := "src/foo.test.js", StartLine := 12, EndLine := 12
           AnnotationLevel := "failure", Title := "foo subtracts"
           Message := "foo subtracts" }]
    ∧ (annotationOfAssertion "src/foo.test.js" exAssertionAB).Message = "A\n\nB" :=
  ⟨(message_of_failed_assertion "/home/ci/proj" [some exFailedResult] exFailedResult exAssertionBare
      (by decide) (by decide) (by decide) (by decide)).2.2.1 _ (by decide),
   (message_of_failed_assertion "/home/ci/proj" [some exFailedResult] exFailedResult exAssertionAB
      (by decide) (by decide) (by decide) (by decide)).2.2.2.2 _ rfl⟩

/-- C4: a non-passed result without assertion entries contributes exactly one
annotation: path = file path with the workspace prefix stripped, start line =
end line = 1, level "failure", title "Test Suite Error", message = the
result's suite-level message. -/
theorem suite_error_yields_one (workspace : String) (t : TestResult)
    (hts : t.Status ≠ "passed") (he : t.AssertionResults = []) :
    (∀ annotations, testResultStep (workspace ++ "/") (some t) annotations =
      some (annotations ++
        [{ Path := TrimPrefix t.FilePath (workspace ++ "/"), StartLine := 1, EndLine := 1
           AnnotationLevel := "failure", Title := "Test Suite Error"
           Message := t.Message }]))
    ∧ buildAnnotations workspace [some t] =
      some [{ Path := TrimPrefix t.FilePath (workspace ++ "/"), StartLine := 1, EndLine := 1
              AnnotationLevel := "failure", Title := "Test Suite Error"
              Message := t.Message }] := by
  constructor
  · intro annotations
    simp [testResultStep, hts, he, annotationOfSuite]
  · simp [buildAnnotations, testResultLoop, testResultStep, hts, he, annotationOfSuite]

/-- Witness for C4: the suite message "SyntaxError: x". -/
theorem suite_error_yields_one_witness :
    buildAnnotations "/home/ci/proj" [some exSuiteError] =
      some [{ Path := "src/bar.test.js", StartLine := 1, EndLine := 1
              AnnotationLevel := "failure", Title := "Test Suite Error"
              Message := "SyntaxError: x" }] :=
  ((suite_error_yields_one "/home/ci/proj" exSuiteError (by decide) rfl).2).trans (by decide)

/-- C5: the summary is "Test Suites: F failed, P passed, T total", a newline,
and "Tests: f failed, p passed, t total", where F, P, T are the test counters
and f, p, t the suite counters, each in decimal. -/
theorem summary_format (report : Report) :
    summary report =
      "Test Suites: " ++ fmtInteger report.NumFailedTests ++ " failed, "
        ++ fmtInteger report.NumPassedTests ++ " passed, "
        ++ fmtInteger report.NumTotalTests ++ " total\nTests: "
        ++ fmtInteger report.NumFailedTestSuites ++ " failed, "
        ++ fmtInteger report.NumPassedTestSuites ++ " passed, "
        ++ fmtInteger report.NumTotalTestSuites ++ " total"
    ∧ (report.NumFailedTests = 2 → report.NumPassedTests = 8 → report.NumTotalTests = 10 →
        report.NumFailedTestSuites = 1 → report.NumPassedTestSuites = 4 →
        report.NumTotalTestSuites = 5 →
        summary report
          = "Test Suites: 2 failed, 8 passed, 10 total\nTests: 1 failed, 4 passed, 5 total") := by
  constructor
  · apply String.ext
    simp [summary, Sprintf, sprintfChars, String.data_append]
  · intro h1 h2 h3 h4 h5 h6
    simp only [summary, h1, h2, h3, h4, h5, h6]
    decide

/-- Witness for C5: the counters of the example report. -/
theorem summary_format_witness :
    summary exReport
      = "Test Suites: 2 failed, 8 passed, 10 total\nTests: 1 failed, 4 passed, 5 total" :=
  (summary_format exReport).2 rfl rfl rfl rfl rfl rfl

/-- C6: for a non-passed result whose file path is `w ++ "/" ++ p`, every
annotation the builder appends for it has path `p`; the builder appends them
whenever it dereferences no null entry. -/
theorem path_is_relative (w p : String) (t : TestResult)
    (hts : t.Status ≠ "passed") (hfp : t.FilePath = w ++ "/" ++ p) :
    TrimPrefix (w ++ "/" ++ p) (w ++ "/") = p
    ∧ ∃ new : List CheckRunAnnotation, (∀ ann ∈ new, ann.Path = p)
      ∧ ∀ annotations, testResultStep (w ++ "/") (some t) annotations =
          if entrySafe (some t) then some (annotations ++ new) else none := by
  have htrim : TrimPrefix (w ++ "/" ++ p) (w ++ "/") = p := TrimPrefix_append (w ++ "/") p
  refine ⟨htrim, specResultAnnotations w (some t), ?_, fun annotations =>
    testResultStep_eq w (some t) annotations⟩
  intro ann hann
  simp only [specResultAnnotations, hts, if_false, hfp, htrim] at hann
  by_cases he : t.AssertionResults = []
  · simp only [he, if_true, List.mem_singleton] at hann
    subst hann
    rfl
  · simp only [he, if_false, List.mem_map] at hann
    obtain ⟨a, _, rfl⟩ := hann
    rfl

/-- Witness for C6: workspace "/home/ci/proj", file
"/home/ci/proj/src/foo.test.js". -/
theorem path_is_relative_witness :
    TrimPrefix "/home/ci/proj/src/foo.test.js" ("/home/ci/proj" ++ "/") = "src/foo.test.js"
    ∧ (buildAnnotations "/home/ci/proj" [some exFailedResult]).map
        (fun l => l.map (fun ann => ann.Path)) = some ["src/foo.test.js", "src/foo.test.js"] :=
  ⟨(path_is_relative "/home/ci/proj" "src/foo.test.js" exFailedResult (by decide) (by decide)).1,
   by decide⟩

/-! ## Lemmas on the chunk loop -/

theorem range_succ_map {β : Type} (f : Nat → β) (m : Nat) :
    (List.range (m + 1)).map f = f 0 :: (List.range m).map (fun j => f (j + 1)) := by
  rw [List.range_succ_eq_map, List.map_cons, List.map_map]
  rfl

/-- With enough iterations allowed and every remaining update succeeding, the
loop from index `i` makes one call per chunk start `i, i + 50, ...` below the
length and completes. -/
theorem chunkLoop_all_ok (remote : Remote) (owner repoName : String) (id : Int)
    (checkName head summary : String) (annotations : List CheckRunAnnotation)
    (fuel i k : Nat) (hfuel : annotations.length ≤ i + 50 * fuel)
    (hok : ∀ j, j < (annotations.length - i + 49) / 50 → remote.UpdateCheckRun (k + j) = none) :
    chunkLoop remote owner repoName id checkName head summary annotations fuel i k =
      some ((List.range ((annotations.length - i + 49) / 50)).map
        (fun j => Event.UpdateCheckRun owner repoName id
          (chunkOptions checkName head summary annotations (i + 50 * j))), none) := by
  induction fuel generalizing i k with
  | zero =>
    have hi : ¬ i < annotations.length := by omega
    have hz : (annotations.length - i + 49) / 50 = 0 := by omega
    simp [chunkLoop, hi, hz]
  | succ fuel ih =>
    by_cases hi : i < annotations.length
    · have hc : (annotations.length - i + 49) / 50
          = (annotations.length - (i + 50) + 49) / 50 + 1 := by omega
      have h0 : remote.UpdateCheckRun k = none := by
        have := hok 0 (by omega)
        simpa using this
      have hrec := ih (i + 50) (k + 1) (by omega) (by
        intro j hj
        have := hok (j + 1) (by omega)
        rw [← this]
        congr 1
        omega)
      rw [chunkLoop]
      simp only [hi, if_true, h0, hrec, hc, range_succ_map]
      simp only [Nat.mul_zero, Nat.add_zero, Nat.mul_add, Nat.mul_one, Nat.add_assoc,
        Nat.add_comm 50]
    · have hz : (annotations.length - i + 49) / 50 = 0 := by omega
      simp [chunkLoop, hi, hz]

/-- When the updates `k, ..., k + m - 1` succeed and update `k + m` fails on a
chunk that exists, the loop from index `i` makes exactly those `m + 1` calls
and stops with the error. -/
theorem chunkLoop_fails_at (remote : Remote) (owner repoName : String) (id : Int)
    (checkName head summary : String) (annotations : List CheckRunAnnotation) (err : String)
    (m fuel i k : Nat) (hfuel : m < fuel) (hin : i + 50 * m < annotations.length)
    (hok : ∀ j, j < m → remote.UpdateCheckRun (k + j) = none)
    (hfail : remote.UpdateCheckRun (k + m) = some err) :
    chunkLoop remote owner repoName id checkName head summary annotations fuel i k =
      some ((List.range (m + 1)).map
        (fun j => Event.UpdateCheckRun owner repoName id
          (chunkOptions checkName head summary annotations (i + 50 * j))), some err) := by
  induction m generalizing fuel i k with
  | zero =>
    obtain ⟨fuel, rfl⟩ : ∃ f, fuel = f + 1 := ⟨fuel - 1, by omega⟩
    have hi : i < annotations.length := by omega
    have hf : remote.UpdateCheckRun k = some err := by simpa using hfail
    simp [chunkLoop, hi, hf, List.range_succ]
  | succ m ih =>
    obtain ⟨fuel, rfl⟩ : ∃ f, fuel = f + 1 := ⟨fuel - 1, by omega⟩
    have hi : i < annotations.length := by omega
    have h0 : remote.UpdateCheckRun k = none := by
      have := hok 0 (by omega)
      simpa using this
    have hrec := ih fuel (i + 50) (k + 1) (by omega) (by omega) (by
      intro j hj
      have := hok (j + 1) (by omega)
      rw [← this]
      congr 1
      omega) (by
      rw [← hfail]
      congr 1
      omega)
    rw [chunkLoop]
    simp only [hi, if_true, h0, hrec, range_succ_map (m := m + 1)]
    simp only [Nat.mul_zero, Nat.add_zero, Nat.mul_add, Nat.mul_one, Nat.add_assoc,
      Nat.add_comm 50]

theorem chunkOptions_eq (checkName head summary : String)
    (annotations : List CheckRunAnnotation) (i : Nat) :
    chunkOptions checkName head summary annotations i =
      { Name := checkName, HeadSHA := head
        Output := { Title := "Result", Summary := summary
                    Annotations := slice annotations i (min (i + 50) annotations.length) } } := by
  by_cases h : i + 50 > annotations.length
  · have hm : min (i + 50) annotations.length = annotations.length := by omega
    simp [chunkOptions, h, hm]
  · have hm : min (i + 50) annotations.length = i + 50 := by omega
    simp [chunkOptions, h, hm]

theorem slice_length (annotations : List CheckRunAnnotation) (i j : Nat) :
    (slice annotations i j).length = min j annotations.length - i := by
  simp [slice]

theorem chunks_flatten_take (annotations : List CheckRunAnnotation) (m : Nat) :
    ((List.range m).map
      (fun k => slice annotations (50 * k) (min (50 * k + 50) annotations.length))).flatten
      = annotations.take (50 * m) := by
  induction m with
  | zero => simp
  | succ m ih =>
    rw [List.range_succ, List.map_append, List.flatten_append, ih]
    simp only [List.map_cons, List.map_nil, List.flatten_cons, List.flatten_nil,
      List.append_nil, slice]
    have h1 : List.take (min (50 * m + 50) annotations.length) annotations
        = List.take (50 * (m + 1)) annotations := by
      rw [List.take_eq_take]
      simp only [Nat.mul_add, Nat.mul_one]
      omega
    have h2 : List.take (50 * m) annotations
        = List.take (50 * m) (List.take (50 * (m + 1)) annotations) := by
      rw [List.take_take]
      congr 1
      omega
    rw [h1]
    conv_lhs => rw [h2]
    exact List.take_append_drop _ _

/-- The number of chunks `(n + 49) / 50` is the ceiling of `n / 50`. -/
theorem ceil_div_fifty (n : Nat) : ⌈(n : ℚ) / 50⌉₊ = (n + 49) / 50 := by
  apply le_antisymm
  · rw [Nat.ceil_le]
    have h : n ≤ 50 * ((n + 49) / 50) := by omega
    have h2 : (n : ℚ) ≤ 50 * (((n + 49) / 50 : ℕ) : ℚ) := by exact_mod_cast h
    linarith
  · by_cases hc : (n + 49) / 50 = 0
    · omega
    · have h : 50 * ((n + 49) / 50 - 1) < n := by omega
      have hlt : (n + 49) / 50 - 1 < ⌈(n : ℚ) / 50⌉₊ := by
        rw [Nat.lt_ceil]
        have h2 : (50 : ℚ) * (((n + 49) / 50 - 1 : ℕ) : ℚ) < (n : ℚ) := by exact_mod_cast h
        linarith
      omega

theorem specChunk_length (annotations : List CheckRunAnnotation) (k : Nat) :
    (specChunk annotations k).length = min (50 * k + 50) annotations.length - 50 * k := by
  simp [specChunk, slice_length]

theorem chunk_call_eq (owner repoName : String) (id : Int) (checkName head summary : String)
    (annotations : List CheckRunAnnotation) (m : Nat) :
    (List.range m).map (fun j => Event.UpdateCheckRun owner repoName id
        (chunkOptions checkName head summary annotations (0 + 50 * j)))
      = (List.range m).map
          (specUpdateCall owner repoName id checkName head summary annotations) := by
  apply List.map_congr_left
  intro j _
  simp [specUpdateCall, specChunk, chunkOptions_eq]

/-! ## Batch uploader: the claims -/

/-- C1: when every update call succeeds, the chunk loop issues exactly
ceil(n/50) update calls (none for n = 0); the k-th (from 0) carries
`annotations[50 k .. min (50 (k + 1)) n)`, every chunk is non-empty with at
most 50 elements, the chunks concatenated in call order are the annotation
list, every call carries the same summary, title "Result", check name and
head SHA; for n = 120 the chunk sizes are 50, 50, 20. -/
theorem upload_chunks (remote : Remote) (owner repoName : String) (id : Int)
    (checkName head summary : String) (annotations : List CheckRunAnnotation)
    (hok : ∀ k, k < (annotations.length + 49) / 50 → remote.UpdateCheckRun k = none) :
    upload remote owner repoName id checkName head summary annotations =
      some { events := (List.range ((annotations.length + 49) / 50)).map
               (specUpdateCall owner repoName id checkName head summary annotations)
             outcome := Outcome.fatal summary }
    ∧ (annotations.length + 49) / 50 = ⌈(annotations.length : ℚ) / 50⌉₊
    ∧ (annotations = [] → (annotations.length + 49) / 50 = 0)
    ∧ (∀ k, k < (annotations.length + 49) / 50 →
        specChunk annotations k ≠ [] ∧ (specChunk annotations k).length ≤ 50)
    ∧ ((List.range ((annotations.length + 49) / 50)).map (specChunk annotations)).flatten
        = annotations
    ∧ (annotations.length = 120 →
        (List.range ((annotations.length + 49) / 50)).map
          (fun k => (specChunk annotations k).length) = [50, 50, 20]) := by
  refine ⟨?_, (ceil_div_fifty annotations.length).symm, ?_, ?_, ?_, ?_⟩
  · have h := chunkLoop_all_ok remote owner repoName id checkName head summary annotations
      annotations.length 0 0 (by omega) (by
        intro j hj
        simpa using hok j (by simpa using hj))
    simp only [Nat.sub_zero, chunk_call_eq] at h
    simp [upload, h]
  · intro hnil
    simp [hnil]
  · intro k hk
    have hlen := specChunk_length annotations k
    constructor
    · intro hnil
      rw [hnil] at hlen
      simp only [List.length_nil] at hlen
      omega
    · omega
  · have h := chunks_flatten_take annotations ((annotations.length + 49) / 50)
    have hall : List.take (50 * ((annotations.length + 49) / 50)) annotations = annotations :=
      List.take_of_length_le (by omega)
    rw [hall] at h
    exact h
  · intro hn
    simp [hn, specChunk_length, List.range_succ]

/-- Witness for C1: 120 annotations, every update succeeding. -/
theorem upload_chunks_witness :
    (List.range (((List.replicate 120 exAnnotation).length + 49) / 50)).map
      (fun k => (specChunk (List.replicate 120 exAnnotation) k).length) = [50, 50, 20] :=
  (upload_chunks exRemote "rkusa" "jest-action-example" 42 "jest" "0123abc" "summary"
    (List.replicate 120 exAnnotation) (fun _ _ => rfl)).2.2.2.2.2 (by simp)

/-- C9: if the first k-1 update calls succeed and the k-th returns an error
(1 ≤ k ≤ ceil(n/50)), exactly k update calls are made, those for the first k
chunks, and the process ends with a fatal log of that error. -/
theorem upload_stops_at_error (remote : Remote) (owner repoName : String) (id : Int)
    (checkName head summary : String) (annotations : List CheckRunAnnotation)
    (k : Nat) (err : String)
    (hk1 : 1 ≤ k) (hk : k ≤ (annotations.length + 49) / 50)
    (hprev : ∀ j, j < k - 1 → remote.UpdateCheckRun j = none)
    (hfail : remote.UpdateCheckRun (k - 1) = some err) :
    upload remote owner repoName id checkName head summary annotations =
      some { events := (List.range k).map
               (specUpdateCall owner repoName id checkName head summary annotations)
             outcome := Outcome.fatal err }
    ∧ ((List.range k).map
        (specUpdateCall owner repoName id checkName head summary annotations)).length = k := by
  constructor
  · obtain ⟨m, rfl⟩ : ∃ m, k = m + 1 := ⟨k - 1, by omega⟩
    have h := chunkLoop_fails_at remote owner repoName id checkName head summary annotations
      err m annotations.length 0 0 (by omega) (by omega)
      (by
        intro j hj
        simpa using hprev j (by simpa using hj))
      (by simpa using hfail)
    simp only [chunk_call_eq] at h
    simp [upload, h]
  · simp

/-- Witness for C9: 120 annotations, the second update call failing. -/
theorem upload_stops_at_error_witness :
    upload exRemoteSecondFails "rkusa" "jest-action-example" 42 "jest" "0123abc" "summary"
        (List.replicate 120 exAnnotation) =
      some { events :=
               [specUpdateCall "rkusa" "jest-action-example" 42 "jest" "0123abc" "summary"
                  (List.replicate 120 exAnnotation) 0,
                specUpdateCall "rkusa" "jest-action-example" 42 "jest" "0123abc" "summary"
                  (List.replicate 120 exAnnotation) 1]
             outcome := Outcome.fatal "502 Bad Gateway" } :=
  (upload_stops_at_error exRemoteSecondFails "rkusa" "jest-action-example" 42 "jest" "0123abc"
    "summary" (List.replicate 120 exAnnotation) 2 "502 Bad Gateway" (by decide) (by decide)
    (by intro j hj; have : j = 0 := by omega
        subst this; rfl) rfl).1

/-! ## Lemmas on main -/

theorem splitChars_of_not_mem (sep : Char) (cs piece : List Char) (h : sep ∉ cs) :
    splitChars sep cs piece = [String.mk (piece ++ cs)] := by
  induction cs generalizing piece with
  | nil => simp [splitChars]
  | cons c cs ih =>
    have hc : c ≠ sep := fun e => h (by simp [e])
    have hcs : sep ∉ cs := fun e => h (List.mem_cons_of_mem _ e)
    simp [splitChars, hc, ih _ hcs]

theorem splitChars_ne_nil (sep : Char) (cs piece : List Char) :
    ∃ a rest, splitChars sep cs piece = a :: rest := by
  induction cs generalizing piece with
  | nil => exact ⟨_, _, rfl⟩
  | cons c cs ih =>
    by_cases hc : c = sep
    · exact ⟨String.mk piece, splitChars sep cs [], by simp [splitChars, hc]⟩
    · obtain ⟨a, rest, h⟩ := ih (piece ++ [c])
      exact ⟨a, rest, by simp [splitChars, hc, h]⟩

theorem splitChars_of_mem (sep : Char) (cs piece : List Char) (h : sep ∈ cs) :
    ∃ a b rest, splitChars sep cs piece = a :: b :: rest := by
  induction cs generalizing piece with
  | nil => simp at h
  | cons c cs ih =>
    by_cases hc : c = sep
    · obtain ⟨b, rest, hb⟩ := splitChars_ne_nil sep cs []
      exact ⟨String.mk piece, b, rest, by simp [splitChars, hc, hb]⟩
    · have hcs : sep ∈ cs := by
        rcases List.mem_cons.mp h with e | e
        · exact absurd e.symm hc
        · exact e
      obtain ⟨a, b, rest, hab⟩ := ih (piece ++ [c]) hcs
      exact ⟨a, b, rest, by simp [splitChars, hc, hab]⟩

theorem chunkLoop_total (remote : Remote) (owner repoName : String) (id : Int)
    (checkName head summary : String) (annotations : List CheckRunAnnotation)
    (fuel i k : Nat) (hfuel : annotations.length ≤ i + 50 * fuel) :
    ∃ r, chunkLoop remote owner repoName id checkName head summary annotations fuel i k
      = some r := by
  induction fuel generalizing i k with
  | zero =>
    have hi : ¬ i < annotations.length := by omega
    simp [chunkLoop, hi]
  | succ fuel ih =>
    by_cases hi : i < annotations.length
    · cases hu : remote.UpdateCheckRun k with
      | some err => simp [chunkLoop, hi, hu]
      | none =>
        obtain ⟨r, hr⟩ := ih (i + 50) (k + 1) (by omega)
        simp [chunkLoop, hi, hu, hr]
    · simp [chunkLoop, hi]

/-- The uploader always ends in a fatal log call. -/
theorem upload_total (remote : Remote) (owner repoName : String) (id : Int)
    (checkName head summary : String) (annotations : List CheckRunAnnotation) :
    ∃ events message, upload remote owner repoName id checkName head summary annotations
      = some { events := events, outcome := Outcome.fatal message } := by
  obtain ⟨⟨calls, err⟩, hr⟩ := chunkLoop_total remote owner repoName id checkName head summary
    annotations annotations.length 0 0 (by omega)
  cases err with
  | none => exact ⟨calls, summary, by simp [upload, hr]⟩
  | some e => exact ⟨calls, e, by simp [upload, hr]⟩

theorem Sprintf_not_found (checkName : String) :
    Sprintf "Unable to find check run for action: %s" [Arg.str checkName]
      = "Unable to find check run for action: " ++ checkName := by
  apply String.ext
  simp [Sprintf, sprintfChars, String.data_append]

/-- The iteration bound of the chunk loop is never reached: `main` always
yields a run. -/
theorem main_total (stdin : Except String Report) (env : Env) (remote : Remote) :
    ∃ run, main stdin env remote = some run := by
  cases stdin with
  | error e => simp [main]
  | ok report =>
    by_cases hs : report.Success = true
    · simp [main, hs]
    · by_cases hrepo : '/' ∈ env.GITHUB_REPOSITORY.data
      · obtain ⟨a, b, rest, hab⟩ := splitChars_of_mem '/' env.GITHUB_REPOSITORY.data [] hrepo
        cases hl : remote.ListCheckRunsForRef with
        | error e => simp [main, hs, Split, hab, hl]
        | ok res =>
          cases res with
          | none => simp [main, hs, Split, hab, hl]
          | some result =>
            cases hc : result.CheckRuns with
            | nil => simp [main, hs, Split, hab, hl, hc]
            | cons c cs =>
              cases hb : buildAnnotations env.GITHUB_WORKSPACE report.TestResults with
              | none => simp [main, hs, Split, hab, hl, hc, hb]
              | some annotations =>
                obtain ⟨events, message, hup⟩ := upload_total remote a b (GetID c)
                  env.GITHUB_ACTION env.GITHUB_SHA (summary report) annotations
                simp [main, hs, Split, hab, hl, hc, hb, hup]
      · have hsplit := splitChars_of_not_mem '/' env.GITHUB_REPOSITORY.data [] hrepo
        simp [main, hs, Split, hsplit]

/-! ## main: the claims -/

/-- C7: for a report with `Success = true`, whatever its other fields, the
environment and the remote, `main` makes no API call, writes no output and
returns normally. -/
theorem success_is_silent (report : Report) (env : Env) (remote : Remote)
    (hs : report.Success = true) :
    main (Except.ok report) env remote = some { events := [], outcome := Outcome.returned } := by
  simp [main, hs]

/-- Witness for C7: the example report with `Success` set, in an environment
without `GITHUB_REPOSITORY`. -/
theorem success_is_silent_witness :
    main (Except.ok { exReport with Success := true }) exEnvNoRepository exRemoteSecondFails
      = some { events := [], outcome := Outcome.returned } :=
  success_is_silent { exReport with Success := true } exEnvNoRepository exRemoteSecondFails rfl

/-- C8: for a report with `Success = false`, when the lookup returns an empty
list, the run contains no update call, and a run in which the lookup is made
ends with the fatal diagnostic "Unable to find check run for action: " followed
by `GITHUB_ACTION`; the lookup is made whenever `GITHUB_REPOSITORY` contains
a "/". -/
theorem empty_lookup_is_fatal (report : Report) (env : Env) (remote : Remote)
    (result : ListCheckRunsResults)
    (hs : report.Success = false) (hl : remote.ListCheckRunsForRef = Except.ok (some result))
    (he : result.CheckRuns = []) :
    ∃ run, main (Except.ok report) env remote = some run
      ∧ (∀ o r id opts, Event.UpdateCheckRun o r id opts ∉ run.events)
      ∧ ((∃ o r h, Event.ListCheckRunsForRef o r h ∈ run.events) →
          run.outcome = Outcome.fatal
            ("Unable to find check run for action: " ++ env.GITHUB_ACTION))
      ∧ ('/' ∈ env.GITHUB_REPOSITORY.data →
          ∃ o r, run.events = [Event.ListCheckRunsForRef o r env.GITHUB_SHA]) := by
  by_cases hrepo : '/' ∈ env.GITHUB_REPOSITORY.data
  · obtain ⟨a, b, rest, hab⟩ := splitChars_of_mem '/' env.GITHUB_REPOSITORY.data [] hrepo
    refine ⟨{ events := [Event.ListCheckRunsForRef a b env.GITHUB_SHA]
              outcome := Outcome.fatal
                ("Unable to find check run for action: " ++ env.GITHUB_ACTION) }, ?_, ?_, ?_, ?_⟩
    · simp [main, hs, Split, hab, hl, he, Sprintf_not_found]
    · intro o r id opts hmem
      simp at hmem
    · intro _
      rfl
    · intro _
      exact ⟨a, b, rfl⟩
  · have hsplit := splitChars_of_not_mem '/' env.GITHUB_REPOSITORY.data [] hrepo
    refine ⟨{ events := [], outcome := Outcome.panic }, ?_, ?_, ?_, ?_⟩
    · simp [main, hs, Split, hsplit]
    · intro o r id opts hmem
      simp at hmem
    · rintro ⟨o, r, h, hmem⟩
      simp at hmem
    · intro h
      exact absurd h hrepo

/-- Witness for C8: the example report and environment, the lookup returning
an empty list. -/
theorem empty_lookup_is_fatal_witness :
    ∃ run, main (Except.ok exReport) exEnv exRemoteEmpty = some run
      ∧ (∀ o r id opts, Event.UpdateCheckRun o r id opts ∉ run.events)
      ∧ ((∃ o r h, Event.ListCheckRunsForRef o r h ∈ run.events) →
          run.outcome = Outcome.fatal
            ("Unable to find check run for action: " ++ exEnv.GITHUB_ACTION))
      ∧ ('/' ∈ exEnv.GITHUB_REPOSITORY.data →
          ∃ o r, run.events = [Event.ListCheckRunsForRef o r exEnv.GITHUB_SHA]) :=
  empty_lookup_is_fatal exReport exEnv exRemoteEmpty { CheckRuns := [] } rfl rfl rfl

/-- C10, as stated, fails: with `GITHUB_REPOSITORY` unset, `repoParts[1]` is
out of range and the failed example report ends in a run-time panic before
any API call, not in a fatal log call. -/
theorem unset_repository_panics :
    exReport.Success = false
    ∧ main (Except.ok exReport) exEnvNoRepository exRemote
        = some { events := [], outcome := Outcome.panic }
    ∧ ¬ ∃ events message, main (Except.ok exReport) exEnvNoRepository exRemote
        = some { events := events, outcome := Outcome.fatal message } := by
  have hrun : main (Except.ok exReport) exEnvNoRepository exRemote
      = some { events := [], outcome := Outcome.panic } := by decide
  refine ⟨rfl, hrun, ?_⟩
  rintro ⟨events, message, h⟩
  rw [hrun] at h
  simp at h

/-- A lookup that returns a nil result with a nil error makes `main` panic at
`result.CheckRuns` (line 79), right after the lookup. -/
theorem nil_lookup_result_panics (report : Report) (env : Env) (remote : Remote)
    (hs : report.Success = false) (hrepo : '/' ∈ env.GITHUB_REPOSITORY.data)
    (hl : remote.ListCheckRunsForRef = Except.ok none) :
    ∃ owner repoName, main (Except.ok report) env remote
      = some { events := [Event.ListCheckRunsForRef owner repoName env.GITHUB_SHA]
               outcome := Outcome.panic } := by
  obtain ⟨a, b, rest, hab⟩ := splitChars_of_mem '/' env.GITHUB_REPOSITORY.data [] hrepo
  exact ⟨a, b, by simp [main, hs, Split, hab, hl]⟩

/-- C10, amended: for a report with `Success = false` in which no
dereferenced entry is null, an environment whose `GITHUB_REPOSITORY` contains
a "/", and a remote whose lookup does not return a nil result together with a
nil error, `main` ends in a fatal log call whatever else the remote returns;
when the lookup returns a non-empty list and every update succeeds, the
message of that call is the summary. -/
theorem failure_ends_fatally (report : Report) (env : Env) (remote : Remote)
    (hs : report.Success = false) (hrepo : '/' ∈ env.GITHUB_REPOSITORY.data)
    (hsafe : derefSafe report.TestResults = true)
    (hres : remote.ListCheckRunsForRef ≠ Except.ok none) :
    (∃ events message, main (Except.ok report) env remote
        = some { events := events, outcome := Outcome.fatal message })
    ∧ (∀ result checkRun rest, remote.ListCheckRunsForRef = Except.ok (some result) →
        result.CheckRuns = checkRun :: rest →
        (∀ k, remote.UpdateCheckRun k = none) →
        ∃ events, main (Except.ok report) env remote
          = some { events := events, outcome := Outcome.fatal (summary report) }) := by
  obtain ⟨a, b, rest, hab⟩ := splitChars_of_mem '/' env.GITHUB_REPOSITORY.data [] hrepo
  have hbuild : buildAnnotations env.GITHUB_WORKSPACE report.TestResults
      = some (specAnnotations env.GITHUB_WORKSPACE report.TestResults) := by
    simp [buildAnnotations_eq, hsafe]
  constructor
  · cases hl : remote.ListCheckRunsForRef with
    | error e => simp [main, hs, Split, hab, hl]
    | ok res =>
      cases res with
      | none => exact absurd hl hres
      | some result =>
        cases hc : result.CheckRuns with
        | nil => simp [main, hs, Split, hab, hl, hc]
        | cons c cs =>
          obtain ⟨events, message, hup⟩ := upload_total remote a b (GetID c) env.GITHUB_ACTION
            env.GITHUB_SHA (summary report)
            (specAnnotations env.GITHUB_WORKSPACE report.TestResults)
          simp [main, hs, Split, hab, hl, hc, hbuild, hup]
  · intro result c cs hl hc hok
    have hup := (chunkLoop_all_ok remote a b (GetID c) env.GITHUB_ACTION env.GITHUB_SHA
      (summary report) (specAnnotations env.GITHUB_WORKSPACE report.TestResults)
      (specAnnotations env.GITHUB_WORKSPACE report.TestResults).length 0 0 (by omega)
      (fun j _ => hok (0 + j)))
    simp [main, hs, Split, hab, hl, hc, hbuild, upload, hup]

/-- Witness for the amended C10: the example report, environment and remote. -/
theorem failure_ends_fatally_witness :
    ∃ events, main (Except.ok exReport) exEnv exRemote
      = some { events := events
               outcome := Outcome.fatal
                 "Test Suites: 2 failed, 8 passed, 10 total\nTests: 1 failed, 4 passed, 5 total" } :=
  (failure_ends_fatally exReport exEnv exRemote rfl (by decide) (by decide)
    (by simp [exRemote])).2 _ _ _ rfl rfl (fun _ => rfl)

end JestAction
